import Mathlib

/-!
Verification of the serialized-tree importer in `cms/db/ImportFromDict.py`.

The importer turns a nested-map (parsed JSON) tree into a linked graph of
contest entities.  We embed it shallowly: Python dictionaries of scalar
fields become Lean structures (with a `payload` field standing for the
scalar fields the importer merely passes through to the entity
constructor), the Python `dict(...)` built from a pair list becomes
`pyDict` (later binding for a key overwrites the earlier one), Python list
indexing — which accepts negative indices — becomes `pyIndex`, and
exceptions become `Except ImportError`.

The one cyclic reference in the runtime graph (a user's submissions point
back at the user) cannot exist in a Lean value, and the spec declares all
identity structural; we therefore model a submission's back-reference as
an `Option UserCore`, where `UserCore` is the user minus its submission
list, with `none` as the unset placeholder the code installs before the
patch.
-/

namespace Cms

inductive ImportError where
  | malformedRecord
  | duplicateKey
  | brokenReference
  | userNotFound
  deriving DecidableEq, Repr

instance {ε α : Type} [DecidableEq ε] [DecidableEq α] : DecidableEq (Except ε α)
  | .ok x, .ok y =>
    if h : x = y then .isTrue (congrArg Except.ok h)
    else .isFalse (fun hc => h (Except.ok.inj hc))
  | .error e, .error f =>
    if h : e = f then .isTrue (congrArg Except.error h)
    else .isFalse (fun hc => h (Except.error.inj hc))
  | .ok _, .error _ => .isFalse (fun hc => Except.noConfusion hc)
  | .error _, .ok _ => .isFalse (fun hc => Except.noConfusion hc)

/-! ## Leaf entities

Each leaf entity is built field-for-field from its record by
`basic_import_from_dict` (`cls(**data)`); its record therefore has the
same shape as the entity, and `payload` stands for its scalar fields. -/

structure Announcement where
  payload : String
  deriving DecidableEq, Repr

structure Message where
  payload : String
  deriving DecidableEq, Repr

structure Question where
  payload : String
  deriving DecidableEq, Repr

structure SubmissionFormatElement where
  payload : String
  deriving DecidableEq, Repr

structure Manager where
  filename : String
  payload : String
  deriving DecidableEq, Repr

structure Attachment where
  filename : String
  payload : String
  deriving DecidableEq, Repr

structure Testcase where
  payload : String
  deriving DecidableEq, Repr

structure Evaluation where
  payload : String
  deriving DecidableEq, Repr

structure File where
  filename : String
  payload : String
  deriving DecidableEq, Repr

structure Executable where
  filename : String
  payload : String
  deriving DecidableEq, Repr

structure Token where
  payload : String
  deriving DecidableEq, Repr

/-- `basic_import_from_dict(cls, data) = cls(**data)`: the leaf classes are
built field-for-field from their record, which our typed records make the
identity. -/
def basic_import_from_dict {α : Type} (data : α) : α := data

/-! ## Composite entities -/

structure Task where
  payload : String
  attachments : List (String × Attachment)
  submission_format : List SubmissionFormatElement
  managers : List (String × Manager)
  testcases : List Testcase
  deriving DecidableEq, Repr

/-- A user stripped of its submission list: the part of a `User` a
submission's back-reference can mention without creating a cyclic value. -/
structure UserCore where
  username : String
  payload : String
  messages : List Message
  questions : List Question
  deriving DecidableEq, Repr

structure Submission where
  payload : String
  user : Option UserCore
  task : Task
  files : List (String × File)
  executables : List (String × Executable)
  evaluations : List Evaluation
  token : Option Token
  deriving DecidableEq, Repr

structure User where
  username : String
  payload : String
  messages : List Message
  questions : List Question
  submissions : List Submission
  deriving DecidableEq, Repr

/-- The submission-free view of a user, the value a back-reference holds. -/
def User.core (u : User) : UserCore :=
  { username := u.username, payload := u.payload
    messages := u.messages, questions := u.questions }

structure Score where
  payload : String
  task : Task
  user : User
  deriving DecidableEq, Repr

structure RankingView where
  payload : String
  scores : List ((Task × User) × Score)
  deriving DecidableEq, Repr

structure Contest where
  payload : String
  tasks : List Task
  users : List User
  announcements : List Announcement
  ranking_view : RankingView
  deriving DecidableEq, Repr

/-! ## Serialized records for the composite entities -/

structure TaskData where
  payload : String
  attachments : List Attachment
  submission_format : List SubmissionFormatElement
  managers : List Manager
  testcases : List Testcase
  deriving DecidableEq, Repr

structure SubmissionData where
  payload : String
  task : Int
  files : List File
  executables : List Executable
  evaluations : List Evaluation
  token : Option Token
  deriving DecidableEq, Repr

structure UserData where
  username : String
  payload : String
  messages : List Message
  questions : List Question
  submissions : List SubmissionData
  deriving DecidableEq, Repr

structure ScoreData where
  payload : String
  task : Int
  user : String
  deriving DecidableEq, Repr

structure RankingViewData where
  payload : String
  scores : List ScoreData
  deriving DecidableEq, Repr

structure ContestData where
  payload : String
  tasks : List TaskData
  users : List UserData
  announcements : List Announcement
  ranking_view : RankingViewData
  deriving DecidableEq, Repr

/-! ## Python primitives used by the importer -/

/-- Python `dict(pairs)`: bindings are installed left to right, a later
binding for a key silently overwriting the earlier one.  We keep the
resulting map as an association list with pairwise-distinct keys. -/
def pyDict {κ β : Type} [DecidableEq κ] : List (κ × β) → List (κ × β)
  | [] => []
  | p :: rest =>
    if p.1 ∈ (pyDict rest).map Prod.fst then pyDict rest else p :: pyDict rest

/-- Dictionary lookup `d[k]` on an association list. -/
def dlookup {κ β : Type} [DecidableEq κ] (k : κ) : List (κ × β) → Option β
  | [] => none
  | p :: rest => if p.1 = k then some p.2 else dlookup k rest

/-- Python list indexing `tasks[i]`: a negative index counts from the end
(`tasks[i]` is `tasks[i + len(tasks)]` for `-len ≤ i < 0`); anything
outside `[-n, n)` raises `IndexError` (error kind `brokenReference` in
the spec's taxonomy). -/
def pyIndex (tasks : List Task) (i : Int) : Except ImportError Task :=
  if h : 0 ≤ i ∧ i < (tasks.length : Int) then
    .ok (tasks.get ⟨i.toNat, by omega⟩)
  else if h' : -(tasks.length : Int) ≤ i ∧ i < 0 then
    .ok (tasks.get ⟨(i + tasks.length).toNat, by omega⟩)
  else
    .error .brokenReference

/-- A Python list comprehension over a builder that may raise: the first
exception aborts the whole traversal. -/
def mapOrFail {α β : Type} (f : α → Except ImportError β) :
    List α → Except ImportError (List β)
  | [] => .ok []
  | x :: xs =>
    match f x with
    | .error e => .error e
    | .ok y =>
      match mapOrFail f xs with
      | .error e => .error e
      | .ok ys => .ok (y :: ys)

/-! ## The importer, one builder per entity class -/

/-- `task_import_from_dict`: build the attachment and manager lists, key
them by filename with `dict(...)`, build the format elements and
testcases, and construct the task. -/
def Task.import_from_dict (data : TaskData) : Task :=
  let attachments := data.attachments.map basic_import_from_dict
  let attachments := pyDict (attachments.map fun a => (a.filename, a))
  let submission_format := data.submission_format.map basic_import_from_dict
  let managers := data.managers.map basic_import_from_dict
  let managers := pyDict (managers.map fun m => (m.filename, m))
  let testcases := data.testcases.map basic_import_from_dict
  { payload := data.payload, attachments := attachments
    submission_format := submission_format, managers := managers
    testcases := testcases }

/-- `submission_import_from_dict`: build files and executables and key
them by filename, build evaluations and the optional token, resolve the
task by position in the context task list, and leave `user` unset. -/
def Submission.import_from_dict (data : SubmissionData) (tasks : List Task) :
    Except ImportError Submission := do
  let files := data.files.map basic_import_from_dict
  let files := pyDict (files.map fun f => (f.filename, f))
  let executables := data.executables.map basic_import_from_dict
  let executables := pyDict (executables.map fun e => (e.filename, e))
  let evaluations := data.evaluations.map basic_import_from_dict
  let token := data.token.map basic_import_from_dict
  let task ← pyIndex tasks data.task
  pure { payload := data.payload, user := none, task := task
         files := files, executables := executables
         evaluations := evaluations, token := token }

/-- The helper `get_user` inside `score_import_from_dict`: linear scan of
the context user list comparing usernames; `KeyError` (kind
`userNotFound`) when no user matches. -/
def get_user : List User → String → Except ImportError User
  | [], _ => .error .userNotFound
  | u :: us, username =>
    if u.username = username then .ok u else get_user us username

/-- `score_import_from_dict`: resolve the task by position and the user by
username, then construct the score. -/
def Score.import_from_dict (data : ScoreData) (tasks : List Task)
    (users : List User) : Except ImportError Score := do
  let task ← pyIndex tasks data.task
  let user ← get_user users data.user
  pure { payload := data.payload, task := task, user := user }

/-- Modelled from the spec: `Score.rankingview_keyfunc` lives in the View
module, which is not among the given sources; the spec says ranking-view
scores are keyed by the (task, user) pair. -/
def Score.rankingview_keyfunc (score : Score) : Task × User :=
  (score.task, score.user)

/-- `rankingview_import_from_dict`: build every score with the task and
user contexts, then key the scores by `rankingview_keyfunc` with
`dict(...)`. -/
def RankingView.import_from_dict (data : RankingViewData) (tasks : List Task)
    (users : List User) : Except ImportError RankingView := do
  let scores ← mapOrFail
    (fun score_data => Score.import_from_dict score_data tasks users)
    data.scores
  let scores := pyDict (scores.map fun score => (Score.rankingview_keyfunc score, score))
  pure { payload := data.payload, scores := scores }

/-- `user_import_from_dict`: build messages, questions and submissions
(passing the task context down), construct the user, then patch every
owned submission's back-reference to the just-built user. -/
def User.import_from_dict (data : UserData) (tasks : List Task) :
    Except ImportError User := do
  let messages := data.messages.map basic_import_from_dict
  let questions := data.questions.map basic_import_from_dict
  let submissions ← mapOrFail
    (fun submission_data => Submission.import_from_dict submission_data tasks)
    data.submissions
  let obj : User :=
    { username := data.username, payload := data.payload
      messages := messages, questions := questions
      submissions := submissions }
  pure { obj with
         submissions := obj.submissions.map fun s => { s with user := some obj.core } }

/-- `contest_import_from_dict`: tasks, then users (given the tasks), then
announcements, then the ranking view (given tasks and users), then the
contest itself. -/
def Contest.import_from_dict (data : ContestData) : Except ImportError Contest := do
  let tasks := data.tasks.map Task.import_from_dict
  let users ← mapOrFail (fun user_data => User.import_from_dict user_data tasks)
    data.users
  let announcements := data.announcements.map basic_import_from_dict
  let ranking_view ← RankingView.import_from_dict data.ranking_view tasks users
  pure { payload := data.payload, tasks := tasks, users := users
         announcements := announcements, ranking_view := ranking_view }

/-! ## Lemmas about the Python primitives -/

theorem mem_of_mem_pyDict {κ β : Type} [DecidableEq κ] {l : List (κ × β)}
    {p : κ × β} (h : p ∈ pyDict l) : p ∈ l := by
  induction l with
  | nil => simp [pyDict] at h
  | cons q rest ih =>
    by_cases hmem : q.1 ∈ (pyDict rest).map Prod.fst
    · simp only [pyDict, if_pos hmem] at h
      exact List.mem_cons_of_mem q (ih h)
    · simp only [pyDict, if_neg hmem, List.mem_cons] at h
      rcases h with h | h
      · exact h ▸ List.mem_cons_self q rest
      · exact List.mem_cons_of_mem q (ih h)

theorem pyDict_keys_mem {κ β : Type} [DecidableEq κ] {l : List (κ × β)}
    {k : κ} : k ∈ (pyDict l).map Prod.fst ↔ k ∈ l.map Prod.fst := by
  induction l with
  | nil => simp [pyDict]
  | cons q rest ih =>
    by_cases hmem : q.1 ∈ (pyDict rest).map Prod.fst
    · simp only [pyDict, if_pos hmem, List.map_cons, List.mem_cons, ih]
      constructor
      · exact Or.inr
      · rintro (h | h)
        · subst h
          exact ih.mp hmem
        · exact h
    · simp [pyDict, if_neg hmem, ih]

theorem pyDict_keys_nodup {κ β : Type} [DecidableEq κ] (l : List (κ × β)) :
    ((pyDict l).map Prod.fst).Nodup := by
  induction l with
  | nil => simp [pyDict]
  | cons q rest ih =>
    by_cases hmem : q.1 ∈ (pyDict rest).map Prod.fst
    · simpa [pyDict, if_pos hmem] using ih
    · simp only [pyDict, if_neg hmem, List.map_cons, List.nodup_cons]
      exact ⟨hmem, ih⟩

theorem pyDict_eq_self {κ β : Type} [DecidableEq κ] {l : List (κ × β)}
    (h : (l.map Prod.fst).Nodup) : pyDict l = l := by
  induction l with
  | nil => rfl
  | cons q rest ih =>
    simp only [List.map_cons, List.nodup_cons] at h
    have hmem : q.1 ∉ (pyDict rest).map Prod.fst := fun hc =>
      h.1 (pyDict_keys_mem.mp hc)
    simp [pyDict, if_neg hmem, ih h.2]

theorem dlookup_eq_none {κ β : Type} [DecidableEq κ] {l : List (κ × β)}
    {k : κ} : dlookup k l = none ↔ k ∉ l.map Prod.fst := by
  induction l with
  | nil => simp [dlookup]
  | cons q rest ih =>
    by_cases hq : q.1 = k
    · simp [dlookup, hq]
    · simp [dlookup, hq, ih, Ne.symm hq]

theorem dlookup_append {κ β : Type} [DecidableEq κ] (k : κ)
    (xs ys : List (κ × β)) :
    dlookup k (xs ++ ys) =
      match dlookup k xs with
      | some v => some v
      | none => dlookup k ys := by
  induction xs with
  | nil => simp [dlookup]
  | cons q rest ih =>
    by_cases hq : q.1 = k
    · simp [dlookup, hq]
    · simp [dlookup, hq, ih]

theorem dlookup_pyDict {κ β : Type} [DecidableEq κ] (k : κ)
    (l : List (κ × β)) : dlookup k (pyDict l) = dlookup k l.reverse := by
  induction l with
  | nil => rfl
  | cons q rest ih =>
    rw [List.reverse_cons, dlookup_append k rest.reverse [q]]
    by_cases hmem : q.1 ∈ (pyDict rest).map Prod.fst
    · simp only [pyDict, if_pos hmem]
      rw [ih]
      cases hfind : dlookup k rest.reverse with
      | some v => rfl
      | none =>
        by_cases hq : q.1 = k
        · exfalso
          have hk : k ∈ rest.map Prod.fst := pyDict_keys_mem.mp (hq ▸ hmem)
          have hub : k ∉ rest.reverse.map Prod.fst := dlookup_eq_none.mp hfind
          rw [List.map_reverse, List.mem_reverse] at hub
          exact hub hk
        · simp [dlookup, hq]
    · simp only [pyDict, if_neg hmem, dlookup]
      by_cases hq : q.1 = k
      · have hk : k ∉ rest.map Prod.fst := fun hc =>
          hmem (pyDict_keys_mem.mpr (hq.symm ▸ hc))
        have hfind : dlookup k rest.reverse = none := by
          rw [dlookup_eq_none, List.map_reverse, List.mem_reverse]
          exact hk
        rw [if_pos hq, hfind]
        exact (if_pos hq).symm
      · rw [if_neg hq, ih]
        cases hfind : dlookup k rest.reverse with
        | some v => rfl
        | none => rw [if_neg hq]

theorem dlookup_of_mem_nodup {κ β : Type} [DecidableEq κ] {l : List (κ × β)}
    {p : κ × β} (h : (l.map Prod.fst).Nodup) (hp : p ∈ l) :
    dlookup p.1 l = some p.2 := by
  induction l with
  | nil => cases hp
  | cons q rest ih =>
    simp only [List.map_cons, List.nodup_cons] at h
    rcases List.mem_cons.mp hp with hq | hq
    · simp [dlookup, hq]
    · have hne : q.1 ≠ p.1 := fun hc =>
        h.1 (hc ▸ List.mem_map_of_mem Prod.fst hq)
      simp [dlookup, hne, ih h.2 hq]

theorem mapOrFail_ok_mem {α β : Type} {f : α → Except ImportError β}
    {l : List α} {l' : List β} (h : mapOrFail f l = .ok l') {y : β}
    (hy : y ∈ l') : ∃ x ∈ l, f x = .ok y := by
  induction l generalizing l' with
  | nil =>
    simp only [mapOrFail] at h
    cases h
    cases hy
  | cons x xs ih =>
    simp only [mapOrFail] at h
    cases hfx : f x with
    | error e => rw [hfx] at h; cases h
    | ok z =>
      rw [hfx] at h
      cases hrest : mapOrFail f xs with
      | error e => rw [hrest] at h; cases h
      | ok zs =>
        rw [hrest] at h
        cases h
        rcases List.mem_cons.mp hy with hz | hz
        · exact ⟨x, List.mem_cons_self x xs, hz ▸ hfx⟩
        · rcases ih hrest hz with ⟨w, hw, hfw⟩
          exact ⟨w, List.mem_cons_of_mem x hw, hfw⟩

theorem mapOrFail_map {α β : Type} {f : α → Except ImportError β}
    {g : α → β} {l : List α} (h : ∀ x ∈ l, f x = .ok (g x)) :
    mapOrFail f l = .ok (l.map g) := by
  induction l with
  | nil => rfl
  | cons x xs ih =>
    have hx := h x (List.mem_cons_self x xs)
    have hxs := ih fun w hw => h w (List.mem_cons_of_mem x hw)
    simp [mapOrFail, hx, hxs]

theorem pyIndex_error_iff (tasks : List Task) (i : Int) :
    pyIndex tasks i = .error .brokenReference ↔
      i < -(tasks.length : Int) ∨ (tasks.length : Int) ≤ i := by
  unfold pyIndex
  split
  · rename_i h
    exact iff_of_false (fun hc => Except.noConfusion hc) (by omega)
  · split
    · rename_i h h'
      exact iff_of_false (fun hc => Except.noConfusion hc) (by omega)
    · rename_i h h'
      exact iff_of_true rfl (by omega)

theorem pyIndex_ok_nonneg {tasks : List Task} {i : Int} (h0 : 0 ≤ i)
    {t : Task} : pyIndex tasks i = .ok t ↔ tasks[i.toNat]? = some t := by
  unfold pyIndex
  split
  · rename_i h
    have hlt : i.toNat < tasks.length := by omega
    rw [List.getElem?_eq_getElem hlt]
    simp [List.get_eq_getElem]
  · split
    · rename_i h h'
      exfalso
      omega
    · rename_i h h'
      have hge : tasks.length ≤ i.toNat := by omega
      rw [List.getElem?_eq_none hge]
      exact iff_of_false (fun hc => Except.noConfusion hc)
        (fun hc => Option.noConfusion hc)

theorem pyIndex_ok_neg {tasks : List Task} {i : Int}
    (hn : -(tasks.length : Int) ≤ i) (h0 : i < 0) {t : Task} :
    pyIndex tasks i = .ok t ↔ tasks[(i + tasks.length).toNat]? = some t := by
  unfold pyIndex
  split
  · rename_i h
    exfalso
    omega
  · split
    · rename_i h h'
      have hlt : (i + (tasks.length : Int)).toNat < tasks.length := by omega
      rw [List.getElem?_eq_getElem hlt]
      simp [List.get_eq_getElem]
    · rename_i h h'
      exfalso
      omega

theorem get_user_error_iff (users : List User) (name : String) :
    get_user users name = .error .userNotFound ↔
      ∀ u ∈ users, u.username ≠ name := by
  induction users with
  | nil => simp [get_user]
  | cons u us ih =>
    by_cases hu : u.username = name
    · simp [get_user, hu]
    · simp [get_user, hu, ih]

theorem get_user_cases (users : List User) (name : String) :
    get_user users name = .error .userNotFound ∨
      ∃ u, get_user users name = .ok u := by
  induction users with
  | nil => exact Or.inl rfl
  | cons u us ih =>
    by_cases hu : u.username = name
    · exact Or.inr ⟨u, by simp [get_user, hu]⟩
    · rcases ih with h | ⟨v, hv⟩
      · exact Or.inl (by simp [get_user, hu, h])
      · exact Or.inr ⟨v, by simp [get_user, hu, hv]⟩

theorem pyIndex_cases (tasks : List Task) (i : Int) :
    pyIndex tasks i = .error .brokenReference ∨
      ∃ t, pyIndex tasks i = .ok t := by
  unfold pyIndex
  split
  · exact Or.inr ⟨_, rfl⟩
  · split
    · exact Or.inr ⟨_, rfl⟩
    · exact Or.inl rfl

theorem get_user_ok {users : List User} {name : String} {u : User}
    (h : get_user users name = .ok u) : u ∈ users ∧ u.username = name := by
  induction users with
  | nil => cases h
  | cons v us ih =>
    by_cases hv : v.username = name
    · simp only [get_user, if_pos hv] at h
      injection h with h
      subst h
      exact ⟨List.mem_cons_self v us, hv⟩
    · simp only [get_user, if_neg hv] at h
      rcases ih h with ⟨hmem, hname⟩
      exact ⟨List.mem_cons_of_mem v hmem, hname⟩

theorem map_basic {α : Type} (l : List α) :
    l.map basic_import_from_dict = l := by
  induction l with
  | nil => rfl
  | cons x xs ih => simp [basic_import_from_dict, ih]

theorem option_map_basic {α : Type} (o : Option α) :
    o.map basic_import_from_dict = o := by
  cases o <;> rfl

theorem map_id_on {α : Type} {f : α → α} {l : List α}
    (h : ∀ x ∈ l, f x = x) : l.map f = l := by
  induction l with
  | nil => rfl
  | cons x xs ih =>
    rw [List.map_cons, h x (List.mem_cons_self x xs),
      ih fun w hw => h w (List.mem_cons_of_mem x hw)]

theorem mapOrFail_comp {α β γ : Type} (f : β → Except ImportError γ)
    (e : α → β) (l : List α) :
    mapOrFail f (l.map e) = mapOrFail (fun x => f (e x)) l := by
  induction l with
  | nil => rfl
  | cons x xs ih => simp only [List.map_cons, mapOrFail, ih]

theorem bind_eq_match {α β : Type} (e : Except ImportError α)
    (f : α → Except ImportError β) :
    e >>= f = match e with | .error err => .error err | .ok a => f a := by
  cases e <;> rfl

/-! ## Normal forms of the builders

Each builder is rewritten as an explicit `match` on the sub-builds that
can fail; everything downstream works from these normal forms. -/

/-- The submission value `submission_import_from_dict` constructs once the
task reference has resolved to `task`. -/
def importedSubmission (sd : SubmissionData) (task : Task) : Submission :=
  { payload := sd.payload, user := none, task := task
    files := pyDict ((sd.files.map basic_import_from_dict).map
      fun f => (f.filename, f))
    executables := pyDict ((sd.executables.map basic_import_from_dict).map
      fun e => (e.filename, e))
    evaluations := sd.evaluations.map basic_import_from_dict
    token := sd.token.map basic_import_from_dict }

theorem submission_import_eq (sd : SubmissionData) (tasks : List Task) :
    Submission.import_from_dict sd tasks =
      match pyIndex tasks sd.task with
      | .error e => .error e
      | .ok task => .ok (importedSubmission sd task) := by
  unfold Submission.import_from_dict importedSubmission
  cases pyIndex tasks sd.task <;> rfl

theorem score_import_eq (sd : ScoreData) (tasks : List Task)
    (users : List User) :
    Score.import_from_dict sd tasks users =
      match pyIndex tasks sd.task with
      | .error e => .error e
      | .ok task =>
        match get_user users sd.user with
        | .error e => .error e
        | .ok user => .ok { payload := sd.payload, task := task, user := user } := by
  unfold Score.import_from_dict
  cases pyIndex tasks sd.task
  · rfl
  · cases get_user users sd.user <;> rfl

theorem user_import_eq (ud : UserData) (tasks : List Task) :
    User.import_from_dict ud tasks =
      match mapOrFail (fun sd => Submission.import_from_dict sd tasks)
          ud.submissions with
      | .error e => .error e
      | .ok submissions =>
        .ok { username := ud.username, payload := ud.payload
              messages := ud.messages.map basic_import_from_dict
              questions := ud.questions.map basic_import_from_dict
              submissions := submissions.map fun s =>
                { s with user := some ⟨ud.username, ud.payload,
                    ud.messages.map basic_import_from_dict,
                    ud.questions.map basic_import_from_dict⟩ } } := by
  unfold User.import_from_dict
  cases mapOrFail (fun sd => Submission.import_from_dict sd tasks)
    ud.submissions <;> rfl

theorem rankingview_import_eq (rvd : RankingViewData) (tasks : List Task)
    (users : List User) :
    RankingView.import_from_dict rvd tasks users =
      match mapOrFail (fun sd => Score.import_from_dict sd tasks users)
          rvd.scores with
      | .error e => .error e
      | .ok scores =>
        .ok { payload := rvd.payload
              scores := pyDict (scores.map fun score =>
                (Score.rankingview_keyfunc score, score)) } := by
  unfold RankingView.import_from_dict
  cases mapOrFail (fun sd => Score.import_from_dict sd tasks users)
    rvd.scores <;> rfl

theorem contest_import_eq (cd : ContestData) :
    Contest.import_from_dict cd =
      match mapOrFail
          (fun ud => User.import_from_dict ud (cd.tasks.map Task.import_from_dict))
          cd.users with
      | .error e => .error e
      | .ok users =>
        match RankingView.import_from_dict cd.ranking_view
            (cd.tasks.map Task.import_from_dict) users with
        | .error e => .error e
        | .ok ranking_view =>
          .ok { payload := cd.payload
                tasks := cd.tasks.map Task.import_from_dict
                users := users
                announcements := cd.announcements.map basic_import_from_dict
                ranking_view := ranking_view } := by
  unfold Contest.import_from_dict
  dsimp only
  rw [bind_eq_match]
  cases mapOrFail
      (fun user_data => User.import_from_dict user_data
        (cd.tasks.map Task.import_from_dict))
      cd.users with
  | error e => rfl
  | ok users =>
    dsimp only
    rw [bind_eq_match]
    cases RankingView.import_from_dict cd.ranking_view
      (cd.tasks.map Task.import_from_dict) users <;> rfl

/-! ## Concrete instances used as witnesses and counterexamples -/

def exTask0 : Task :=
  { payload := "t0", attachments := [], submission_format := []
    managers := [], testcases := [] }

def exTask1 : Task :=
  { payload := "t1", attachments := [], submission_format := []
    managers := [], testcases := [] }

def exSubData0 : SubmissionData :=
  { payload := "s0", task := 0, files := [], executables := []
    evaluations := [], token := none }

def exUserData0 : UserData :=
  { username := "alice", payload := "pw", messages := [], questions := []
    submissions := [exSubData0] }

def exSubPatched : Submission :=
  { payload := "s0", user := some ⟨"alice", "pw", [], []⟩, task := exTask0
    files := [], executables := [], evaluations := [], token := none }

def exUser0 : User :=
  { username := "alice", payload := "pw", messages := [], questions := []
    submissions := [exSubPatched] }

def exAttA : Attachment := { filename := "grader.cpp", payload := "first" }

def exAttB : Attachment := { filename := "grader.cpp", payload := "second" }

def exTaskDataDup : TaskData :=
  { payload := "t", attachments := [exAttA, exAttB], submission_format := []
    managers := [], testcases := [] }

def exFileA : File := { filename := "a.cpp", payload := "one" }

def exFileB : File := { filename := "a.cpp", payload := "two" }

def exSubDataDup : SubmissionData :=
  { payload := "s", task := 0, files := [exFileA, exFileB], executables := []
    evaluations := [], token := none }

def exSubDup : Submission :=
  { payload := "s", user := none, task := exTask0
    files := [("a.cpp", exFileB)], executables := [], evaluations := []
    token := none }

def exSubDataNeg : SubmissionData :=
  { payload := "neg", task := -1, files := [], executables := []
    evaluations := [], token := none }

def exSubNeg : Submission :=
  { payload := "neg", user := none, task := exTask0, files := []
    executables := [], evaluations := [], token := none }

def exSubData5 : SubmissionData :=
  { payload := "x", task := 5, files := [], executables := []
    evaluations := [], token := none }

def exSubDataNeg2 : SubmissionData :=
  { payload := "n2", task := -2, files := [], executables := []
    evaluations := [], token := none }

/-! ## The claims -/

/-- Claim C1: after a user is imported, every submission in its sequence
has its `user` field set to that very user (structural identity: its
submission-free core), a freshly imported submission starts with the unset
placeholder `none` — so the patch in `user_import_from_dict` is what sets
it, once per submission — and no submission reachable from an imported
contest through a user's sequence keeps the placeholder. -/
theorem C1_back_reference_closure :
    (∀ (sd : SubmissionData) (tasks : List Task) (s : Submission),
        Submission.import_from_dict sd tasks = .ok s → s.user = none) ∧
    (∀ (ud : UserData) (tasks : List Task) (u : User),
        User.import_from_dict ud tasks = .ok u →
          ∀ s ∈ u.submissions, s.user = some u.core) ∧
    (∀ (cd : ContestData) (c : Contest),
        Contest.import_from_dict cd = .ok c →
          ∀ u ∈ c.users, ∀ s ∈ u.submissions, s.user = some u.core) := by
  have hsub : ∀ (sd : SubmissionData) (tasks : List Task) (s : Submission),
      Submission.import_from_dict sd tasks = .ok s → s.user = none := by
    intro sd tasks s h
    rw [submission_import_eq] at h
    cases hpi : pyIndex tasks sd.task with
    | error e => rw [hpi] at h; cases h
    | ok t =>
      rw [hpi] at h
      injection h with h
      rw [← h]
      rfl
  have huser : ∀ (ud : UserData) (tasks : List Task) (u : User),
      User.import_from_dict ud tasks = .ok u →
        ∀ s ∈ u.submissions, s.user = some u.core := by
    intro ud tasks u h s hs
    rw [user_import_eq] at h
    cases hm : mapOrFail (fun sd => Submission.import_from_dict sd tasks)
        ud.submissions with
    | error e => rw [hm] at h; cases h
    | ok subs =>
      rw [hm] at h
      injection h with h
      subst h
      rcases List.mem_map.mp hs with ⟨s0, _, rfl⟩
      rfl
  refine ⟨hsub, huser, ?_⟩
  intro cd c h u hu s hs
  rw [contest_import_eq] at h
  cases hm : mapOrFail
      (fun ud => User.import_from_dict ud (cd.tasks.map Task.import_from_dict))
      cd.users with
  | error e => rw [hm] at h; cases h
  | ok users =>
    rw [hm] at h
    dsimp only at h
    cases hrv : RankingView.import_from_dict cd.ranking_view
        (cd.tasks.map Task.import_from_dict) users with
    | error e => rw [hrv] at h; cases h
    | ok rv =>
      rw [hrv] at h
      injection h with h
      subst h
      rcases mapOrFail_ok_mem hm (show u ∈ users from hu) with ⟨ud, _, hud⟩
      exact huser ud _ u hud s hs

theorem C1_back_reference_closure_witness :
    User.import_from_dict exUserData0 [exTask0] = .ok exUser0 ∧
      exSubPatched.user = some exUser0.core :=
  ⟨by decide,
   C1_back_reference_closure.2.1 exUserData0 [exTask0] exUser0 (by decide)
     exSubPatched (by decide)⟩

/-- Claim C2 counterexample: a task record with two attachments both named
"grader.cpp".  The import cannot fail at all (`task_import_from_dict` is
total), and the resulting attachment map holds only the later attachment:
the earlier one was silently overwritten, no `DuplicateKey` error exists. -/
theorem C2_counterexample :
    (Task.import_from_dict exTaskDataDup).attachments
        = [("grader.cpp", exAttB)] ∧
      exAttA ≠ exAttB := by decide

/-- Duplicate filenames in a task's attachment or manager sequence never
make the import fail (`task_import_from_dict` is total): each built map
binds a filename to the entity from the latest record with it (looking a
key up in the map is looking it up in the reversed record sequence) and
has pairwise-distinct keys. -/
theorem task_duplicate_filenames_overwrite (td : TaskData) (k : String) :
    dlookup k (Task.import_from_dict td).attachments =
      dlookup k ((td.attachments.map fun a => (a.filename, a)).reverse) ∧
    dlookup k (Task.import_from_dict td).managers =
      dlookup k ((td.managers.map fun m => (m.filename, m)).reverse) ∧
    ((Task.import_from_dict td).attachments.map Prod.fst).Nodup ∧
    ((Task.import_from_dict td).managers.map Prod.fst).Nodup := by
  unfold Task.import_from_dict
  dsimp only
  rw [map_basic, map_basic]
  exact ⟨dlookup_pyDict k _, dlookup_pyDict k _,
    pyDict_keys_nodup _, pyDict_keys_nodup _⟩

/-- Same as `task_duplicate_filenames_overwrite` for an imported
submission's file and executable maps. -/
theorem submission_duplicate_filenames_overwrite {sd : SubmissionData}
    {tasks : List Task} {s : Submission}
    (h : Submission.import_from_dict sd tasks = .ok s) (k : String) :
    dlookup k s.files =
      dlookup k ((sd.files.map fun f => (f.filename, f)).reverse) ∧
    dlookup k s.executables =
      dlookup k ((sd.executables.map fun e => (e.filename, e)).reverse) ∧
    (s.files.map Prod.fst).Nodup ∧
    (s.executables.map Prod.fst).Nodup := by
  rw [submission_import_eq] at h
  cases hpi : pyIndex tasks sd.task with
  | error e => rw [hpi] at h; cases h
  | ok t =>
    rw [hpi] at h
    injection h with h
    subst h
    unfold importedSubmission
    dsimp only
    rw [map_basic, map_basic]
    exact ⟨dlookup_pyDict k _, dlookup_pyDict k _,
      pyDict_keys_nodup _, pyDict_keys_nodup _⟩

/-- Claim C2 (amended): for every keyed collection built during import —
a task's attachments and managers, a submission's files and executables —
two entities with the same filename key never make the import fail: the
resulting mapping binds the filename to the entity built from the latest
record with that key (looking a key up in the built map is looking it up
in the reversed record sequence), the earlier entity is silently
overwritten, and the resulting map's keys are pairwise distinct. -/
theorem C2_amended_duplicate_keys_overwrite :
    (∀ (td : TaskData) (k : String),
        dlookup k (Task.import_from_dict td).attachments =
          dlookup k ((td.attachments.map fun a => (a.filename, a)).reverse) ∧
        dlookup k (Task.import_from_dict td).managers =
          dlookup k ((td.managers.map fun m => (m.filename, m)).reverse) ∧
        ((Task.import_from_dict td).attachments.map Prod.fst).Nodup ∧
        ((Task.import_from_dict td).managers.map Prod.fst).Nodup) ∧
    (∀ (sd : SubmissionData) (tasks : List Task) (s : Submission),
        Submission.import_from_dict sd tasks = .ok s →
          ∀ k : String,
            dlookup k s.files =
              dlookup k ((sd.files.map fun f => (f.filename, f)).reverse) ∧
            dlookup k s.executables =
              dlookup k ((sd.executables.map fun e => (e.filename, e)).reverse) ∧
            (s.files.map Prod.fst).Nodup ∧
            (s.executables.map Prod.fst).Nodup) :=
  ⟨task_duplicate_filenames_overwrite,
   fun _ _ _ h k => submission_duplicate_filenames_overwrite h k⟩

theorem C2_amended_duplicate_keys_overwrite_witness :
    (exSubDup.files.map Prod.fst).Nodup ∧
      dlookup "grader.cpp" (Task.import_from_dict exTaskDataDup).attachments
        = some exAttB := by
  constructor
  · exact (C2_amended_duplicate_keys_overwrite.2 exSubDataDup [exTask0]
      exSubDup (by decide) "a.cpp").2.2.1
  · have h := (C2_amended_duplicate_keys_overwrite.1 exTaskDataDup
      "grader.cpp").1
    rw [h]
    decide

/-- Claim C9: when two records in the same serialized sequence of a keyed
collection — a task's attachments or managers, a submission's files or
executables — yield the same filename, the import succeeds (always for a
task, and whenever the task reference resolves for a submission) and the
resulting mapping binds that filename to the entity built from the
latest such record; the earlier entity is absent, the map's keys being
pairwise distinct. -/
theorem C9_later_record_wins :
    (∀ (td : TaskData) (k : String),
        dlookup k (Task.import_from_dict td).attachments =
          dlookup k ((td.attachments.map fun a => (a.filename, a)).reverse) ∧
        dlookup k (Task.import_from_dict td).managers =
          dlookup k ((td.managers.map fun m => (m.filename, m)).reverse) ∧
        ((Task.import_from_dict td).attachments.map Prod.fst).Nodup ∧
        ((Task.import_from_dict td).managers.map Prod.fst).Nodup) ∧
    (∀ (sd : SubmissionData) (tasks : List Task) (t : Task),
        pyIndex tasks sd.task = .ok t →
          ∃ s, Submission.import_from_dict sd tasks = .ok s ∧
            (∀ k : String,
              dlookup k s.files =
                dlookup k ((sd.files.map fun f => (f.filename, f)).reverse) ∧
              dlookup k s.executables =
                dlookup k ((sd.executables.map fun e => (e.filename, e)).reverse)) ∧
            (s.files.map Prod.fst).Nodup ∧
            (s.executables.map Prod.fst).Nodup) := by
  constructor
  · exact task_duplicate_filenames_overwrite
  · intro sd tasks t h
    have himp : Submission.import_from_dict sd tasks
        = .ok (importedSubmission sd t) := by
      rw [submission_import_eq, h]
    refine ⟨importedSubmission sd t, himp, ?_, ?_, ?_⟩
    · exact fun k => ⟨(submission_duplicate_filenames_overwrite himp k).1,
        (submission_duplicate_filenames_overwrite himp k).2.1⟩
    · exact (submission_duplicate_filenames_overwrite himp "").2.2.1
    · exact (submission_duplicate_filenames_overwrite himp "").2.2.2

theorem C9_later_record_wins_witness :
    dlookup "a.cpp" exSubDup.files =
      dlookup "a.cpp" ((exSubDataDup.files.map fun f => (f.filename, f)).reverse) := by
  rcases C9_later_record_wins.2 exSubDataDup [exTask0] exTask0 (by decide)
    with ⟨s, hs, hk, _⟩
  have h2 : Submission.import_from_dict exSubDataDup [exTask0] = .ok exSubDup := by
    decide
  rw [hs] at h2
  rw [← Except.ok.inj h2]
  exact (hk "a.cpp").1

/-- Claim C3 counterexample: with a single built task, a submission record
whose task field is -1 — not a position of the task sequence, whose
positions are the integers 0 ≤ i < 1 — does not make the import fail: it
succeeds and resolves the reference to the last task. -/
theorem C3_counterexample :
    Submission.import_from_dict exSubDataNeg [exTask0] = .ok exSubNeg ∧
      (exSubDataNeg.task < 0 ∨
        (([exTask0] : List Task).length : Int) ≤ exSubDataNeg.task) := by
  decide

/-- Claim C3 (amended): the serialized task field is interpreted with
Python sequence-index semantics.  For both submission and score records,
the import fails with `brokenReference` iff the index t lies outside
[-n, n) where n is the task count; on success the entity's task reference
is the Python-indexed task (`pyIndex`): the task at position t for
0 ≤ t < n, and at position n + t for -n ≤ t < 0. -/
theorem C3_amended_positional_resolution :
    (∀ (sd : SubmissionData) (tasks : List Task),
        (Submission.import_from_dict sd tasks = .error .brokenReference ↔
          sd.task < -(tasks.length : Int) ∨ (tasks.length : Int) ≤ sd.task) ∧
        ∀ s, Submission.import_from_dict sd tasks = .ok s →
          pyIndex tasks sd.task = .ok s.task) ∧
    (∀ (sd : ScoreData) (tasks : List Task) (users : List User),
        (Score.import_from_dict sd tasks users = .error .brokenReference ↔
          sd.task < -(tasks.length : Int) ∨ (tasks.length : Int) ≤ sd.task) ∧
        ∀ s, Score.import_from_dict sd tasks users = .ok s →
          pyIndex tasks sd.task = .ok s.task) := by
  constructor
  · intro sd tasks
    constructor
    · rw [submission_import_eq]
      rcases pyIndex_cases tasks sd.task with hpi | ⟨t, hpi⟩
      · rw [hpi]
        exact iff_of_true rfl ((pyIndex_error_iff tasks sd.task).mp hpi)
      · rw [hpi]
        refine iff_of_false (fun hc => Except.noConfusion hc) (fun hc => ?_)
        have herr := (pyIndex_error_iff tasks sd.task).mpr hc
        rw [hpi] at herr
        exact Except.noConfusion herr
    · intro s h
      rw [submission_import_eq] at h
      rcases pyIndex_cases tasks sd.task with hpi | ⟨t, hpi⟩
      · rw [hpi] at h; cases h
      · rw [hpi] at h
        injection h with h
        rw [hpi, ← h]
        rfl
  · intro sd tasks users
    constructor
    · rw [score_import_eq]
      rcases pyIndex_cases tasks sd.task with hpi | ⟨t, hpi⟩
      · rw [hpi]
        exact iff_of_true rfl ((pyIndex_error_iff tasks sd.task).mp hpi)
      · rw [hpi]
        refine iff_of_false (fun hc => ?_) (fun hc => ?_)
        · rcases get_user_cases users sd.user with hgu | ⟨v, hgu⟩
          · rw [hgu] at hc
            exact ImportError.noConfusion (Except.error.inj hc)
          · rw [hgu] at hc
            exact Except.noConfusion hc
        · have herr := (pyIndex_error_iff tasks sd.task).mpr hc
          rw [hpi] at herr
          exact Except.noConfusion herr
    · intro s h
      rw [score_import_eq] at h
      rcases pyIndex_cases tasks sd.task with hpi | ⟨t, hpi⟩
      · rw [hpi] at h; cases h
      · rw [hpi] at h
        rcases get_user_cases users sd.user with hgu | ⟨v, hgu⟩
        · rw [hgu] at h; cases h
        · rw [hgu] at h
          injection h with h
          rw [hpi, ← h]

theorem C3_amended_positional_resolution_witness :
    Submission.import_from_dict exSubData5 [exTask0] = .error .brokenReference :=
  ((C3_amended_positional_resolution.1 exSubData5 [exTask0]).1).mpr (by decide)

/-- Claim C10: a negative task index t with -n ≤ t ≤ -1 never fails the
positional resolution: a submission record imports successfully and a
score record cannot fail with `brokenReference`, the reference resolving
to the task at position n + t; and a `brokenReference` failure happens
only for t < -n or t ≥ n. -/
theorem C10_negative_index_resolution :
    (∀ (sd : SubmissionData) (tasks : List Task),
        -(tasks.length : Int) ≤ sd.task → sd.task ≤ -1 →
          ∃ s, Submission.import_from_dict sd tasks = .ok s ∧
            tasks[(sd.task + tasks.length).toNat]? = some s.task) ∧
    (∀ (sd : ScoreData) (tasks : List Task) (users : List User),
        -(tasks.length : Int) ≤ sd.task → sd.task ≤ -1 →
          Score.import_from_dict sd tasks users ≠ .error .brokenReference ∧
          ∀ s, Score.import_from_dict sd tasks users = .ok s →
            tasks[(sd.task + tasks.length).toNat]? = some s.task) ∧
    (∀ (sd : SubmissionData) (tasks : List Task),
        Submission.import_from_dict sd tasks = .error .brokenReference →
          sd.task < -(tasks.length : Int) ∨ (tasks.length : Int) ≤ sd.task) ∧
    (∀ (sd : ScoreData) (tasks : List Task) (users : List User),
        Score.import_from_dict sd tasks users = .error .brokenReference →
          sd.task < -(tasks.length : Int) ∨ (tasks.length : Int) ≤ sd.task) := by
  have hpiok : ∀ (tasks : List Task) (i : Int),
      -(tasks.length : Int) ≤ i → i ≤ -1 →
        ∃ t, pyIndex tasks i = .ok t ∧
          tasks[(i + tasks.length).toNat]? = some t := by
    intro tasks i hn h1
    rcases pyIndex_cases tasks i with hpi | ⟨t, hpi⟩
    · have := (pyIndex_error_iff tasks i).mp hpi
      omega
    · exact ⟨t, hpi, (pyIndex_ok_neg hn (by omega)).mp hpi⟩
  refine ⟨?_, ?_, ?_, ?_⟩
  · intro sd tasks hn h1
    rcases hpiok tasks sd.task hn h1 with ⟨t, hpi, hget⟩
    refine ⟨importedSubmission sd t, ?_, hget⟩
    rw [submission_import_eq, hpi]
  · intro sd tasks users hn h1
    rcases hpiok tasks sd.task hn h1 with ⟨t, hpi, hget⟩
    constructor
    · rw [score_import_eq, hpi]
      rcases get_user_cases users sd.user with hgu | ⟨v, hgu⟩
      · rw [hgu]
        exact fun hc => ImportError.noConfusion (Except.error.inj hc)
      · rw [hgu]
        exact fun hc => Except.noConfusion hc
    · intro s h
      rw [score_import_eq, hpi] at h
      rcases get_user_cases users sd.user with hgu | ⟨v, hgu⟩
      · rw [hgu] at h; cases h
      · rw [hgu] at h
        injection h with h
        rw [← h]
        exact hget
  · intro sd tasks h
    rw [submission_import_eq] at h
    rcases pyIndex_cases tasks sd.task with hpi | ⟨t, hpi⟩
    · exact (pyIndex_error_iff tasks sd.task).mp hpi
    · rw [hpi] at h; cases h
  · intro sd tasks users h
    rw [score_import_eq] at h
    rcases pyIndex_cases tasks sd.task with hpi | ⟨t, hpi⟩
    · exact (pyIndex_error_iff tasks sd.task).mp hpi
    · rw [hpi] at h
      rcases get_user_cases users sd.user with hgu | ⟨v, hgu⟩
      · rw [hgu] at h
        exact absurd (Except.error.inj h) (fun hc => ImportError.noConfusion hc)
      · rw [hgu] at h
        cases h

theorem C10_negative_index_resolution_witness :
    Submission.import_from_dict exSubDataNeg2 [exTask0, exTask1]
        ≠ .error .brokenReference := by
  rcases C10_negative_index_resolution.1 exSubDataNeg2 [exTask0, exTask1]
    (by decide) (by decide) with ⟨s, hs, _⟩
  rw [hs]
  exact fun hc => Except.noConfusion hc

def exTaskData0 : TaskData :=
  { payload := "t0", attachments := [], submission_format := []
    managers := [], testcases := [] }

def exUserDataCarol : UserData :=
  { username := "carol", payload := "pw", messages := [], questions := []
    submissions := [] }

def exUserCarol : User :=
  { username := "carol", payload := "pw", messages := [], questions := []
    submissions := [] }

def exContestDataMin : ContestData :=
  { payload := "c", tasks := [exTaskData0], users := [exUserDataCarol]
    announcements := [], ranking_view := { payload := "rv", scores := [] } }

def exContestMin : Contest :=
  { payload := "c", tasks := [exTask0], users := [exUserCarol]
    announcements := [], ranking_view := { payload := "rv", scores := [] } }

/-- Claim C4: the contest import is staged in the fixed dependency order —
the task sequence is built first; the user sequence is exactly the result
of building every user record against the completed task sequence; the
announcements are built independently; the ranking view is exactly the
result of building against the completed task and user sequences; and the
contest is assembled from the four results. -/
theorem C4_build_order :
    ∀ (cd : ContestData) (c : Contest),
      Contest.import_from_dict cd = .ok c →
        c.tasks = cd.tasks.map Task.import_from_dict ∧
        mapOrFail (fun ud => User.import_from_dict ud c.tasks) cd.users
            = .ok c.users ∧
        c.announcements = cd.announcements.map basic_import_from_dict ∧
        RankingView.import_from_dict cd.ranking_view c.tasks c.users
            = .ok c.ranking_view ∧
        c.payload = cd.payload := by
  intro cd c h
  rw [contest_import_eq] at h
  cases hm : mapOrFail
      (fun ud => User.import_from_dict ud (cd.tasks.map Task.import_from_dict))
      cd.users with
  | error e => rw [hm] at h; cases h
  | ok users =>
    rw [hm] at h
    dsimp only at h
    cases hrv : RankingView.import_from_dict cd.ranking_view
        (cd.tasks.map Task.import_from_dict) users with
    | error e => rw [hrv] at h; cases h
    | ok rv =>
      rw [hrv] at h
      injection h with h
      subst h
      exact ⟨rfl, hm, rfl, hrv, rfl⟩

theorem C4_build_order_witness :
    exContestMin.tasks = exContestDataMin.tasks.map Task.import_from_dict ∧
      Contest.import_from_dict exContestDataMin = .ok exContestMin :=
  ⟨(C4_build_order exContestDataMin exContestMin (by decide)).1, by decide⟩

def exUserAlice : User :=
  { username := "alice", payload := "pw", messages := [], questions := []
    submissions := [] }

def exScoreData1 : ScoreData := { payload := "10", task := 0, user := "alice" }

def exScoreData2 : ScoreData := { payload := "20", task := 0, user := "alice" }

def exScore1 : Score := { payload := "10", task := exTask0, user := exUserAlice }

def exScore2 : Score := { payload := "20", task := exTask0, user := exUserAlice }

def exRvDataDup : RankingViewData :=
  { payload := "rv", scores := [exScoreData1, exScoreData2] }

def exRvDataSingle : RankingViewData :=
  { payload := "rv", scores := [exScoreData1] }

def exRvSingle : RankingView :=
  { payload := "rv", scores := [((exTask0, exUserAlice), exScore1)] }

/-- Claim C5 counterexample: two distinct score records for the same
(task, user) pair import to two distinct Score entities sharing one key;
the built mapping retains only the later one, so the earlier imported
score is not addressable by its pair. -/
theorem C5_counterexample :
    RankingView.import_from_dict exRvDataDup [exTask0] [exUserAlice] =
        .ok { payload := "rv", scores := [((exTask0, exUserAlice), exScore2)] } ∧
      exScore1 ≠ exScore2 ∧
      Score.rankingview_keyfunc exScore1 = Score.rankingview_keyfunc exScore2 := by
  decide

/-- Claim C5 (amended): in an imported ranking view, every retained entry
is keyed by its own score's (task, user) pair, looking that pair up
returns exactly that score, and the entry keys are pairwise distinct;
when the imported score entities have pairwise-distinct pairs, every one
of them is retained and addressable.  (Two distinct imported scores may
share a pair; then only the later survives.) -/
theorem C5_amended_score_addressability :
    ∀ (rvd : RankingViewData) (tasks : List Task) (users : List User)
      (rv : RankingView),
      RankingView.import_from_dict rvd tasks users = .ok rv →
        ((rv.scores.map Prod.fst).Nodup ∧
          ∀ p ∈ rv.scores, p.1 = Score.rankingview_keyfunc p.2 ∧
            dlookup (Score.rankingview_keyfunc p.2) rv.scores = some p.2) ∧
        ∀ scores,
          mapOrFail (fun sd => Score.import_from_dict sd tasks users)
              rvd.scores = .ok scores →
            (scores.map Score.rankingview_keyfunc).Nodup →
            ∀ sc ∈ scores,
              dlookup (Score.rankingview_keyfunc sc) rv.scores = some sc := by
  intro rvd tasks users rv h
  rw [rankingview_import_eq] at h
  cases hm : mapOrFail (fun sd => Score.import_from_dict sd tasks users)
      rvd.scores with
  | error e => rw [hm] at h; cases h
  | ok scores =>
    rw [hm] at h
    injection h with h
    subst h
    constructor
    · refine ⟨pyDict_keys_nodup _, ?_⟩
      intro p hp
      have hp' := mem_of_mem_pyDict hp
      rcases List.mem_map.mp hp' with ⟨sc, hsc, rfl⟩
      exact ⟨rfl, dlookup_of_mem_nodup (pyDict_keys_nodup _) hp⟩
    · intro scores' hm' hnodup sc hsc
      have heq := Except.ok.inj hm'
      subst heq
      have hkeys : ((scores.map fun s =>
          (Score.rankingview_keyfunc s, s)).map Prod.fst).Nodup := by
        rw [List.map_map]
        exact hnodup
      rw [pyDict_eq_self hkeys]
      exact dlookup_of_mem_nodup hkeys
        (List.mem_map_of_mem (fun s => (Score.rankingview_keyfunc s, s)) hsc)

theorem C5_amended_score_addressability_witness :
    dlookup (exTask0, exUserAlice) exRvSingle.scores = some exScore1 := by
  have h := (C5_amended_score_addressability exRvDataSingle [exTask0]
    [exUserAlice] exRvSingle (by decide)).1.2
  exact (h ((exTask0, exUserAlice), exScore1) (by decide)).2

def exScoreDataBob : ScoreData := { payload := "0", task := 0, user := "bob" }

/-- Claim C6: score → user resolution is the linear username scan
`get_user` over the context user sequence; provided the task index
resolves (otherwise `brokenReference` preempts), the score import fails
with `userNotFound` iff no user in the sequence bears the serialized
username, and on success the score's user reference is a member of the
sequence bearing that username (the first match of the scan). -/
theorem C6_user_lookup_resolution :
    ∀ (sd : ScoreData) (tasks : List Task) (users : List User),
      (∀ t, pyIndex tasks sd.task = .ok t →
        (Score.import_from_dict sd tasks users = .error .userNotFound ↔
          ∀ u ∈ users, u.username ≠ sd.user)) ∧
      (∀ s, Score.import_from_dict sd tasks users = .ok s →
        s.user ∈ users ∧ s.user.username = sd.user ∧
          get_user users sd.user = .ok s.user) := by
  intro sd tasks users
  constructor
  · intro t hpi
    rw [score_import_eq, hpi]
    rcases get_user_cases users sd.user with hgu | ⟨v, hgu⟩
    · rw [hgu]
      exact iff_of_true rfl ((get_user_error_iff users sd.user).mp hgu)
    · rw [hgu]
      refine iff_of_false (fun hc => Except.noConfusion hc) (fun hc => ?_)
      have habs := (get_user_error_iff users sd.user).mpr hc
      rw [hgu] at habs
      exact Except.noConfusion habs
  · intro s h
    rw [score_import_eq] at h
    rcases pyIndex_cases tasks sd.task with hpi | ⟨t, hpi⟩
    · rw [hpi] at h; cases h
    · rw [hpi] at h
      rcases get_user_cases users sd.user with hgu | ⟨v, hgu⟩
      · rw [hgu] at h; cases h
      · rw [hgu] at h
        injection h with h
        rcases get_user_ok hgu with ⟨hmem, hname⟩
        rw [← h]
        exact ⟨hmem, hname, hgu⟩

theorem C6_user_lookup_resolution_witness :
    Score.import_from_dict exScoreDataBob [exTask0] [exUserAlice]
        = .error .userNotFound :=
  ((C6_user_lookup_resolution exScoreDataBob [exTask0] [exUserAlice]).1
    exTask0 (by decide)).mpr (by decide)

/-! ## The context-resolving builders with record mutation made explicit

`score_import_from_dict` executes `data['task'] = tasks[data['task']]` and
`data['user'] = get_user(users, data['user'])`: it overwrites fields of
the caller's record with the resolved references.  To observe this in a
pure embedding, the record fields that can be overwritten are a `Sum` of
the serialized form (left) and the resolved reference (right), and the
builder returns the post-call state of the record and of the two context
lists alongside the entity. -/

structure ScoreDict where
  payload : String
  task : Sum Int Task
  user : Sum String User
  deriving DecidableEq, Repr

structure SubmissionDict where
  payload : String
  files : Sum (List File) (List (String × File))
  executables : Sum (List Executable) (List (String × Executable))
  evaluations : List Evaluation
  token : Option Token
  task : Sum Int Task
  user : Option UserCore
  deriving DecidableEq, Repr

/-- `tasks[data['task']]` on a dynamically-typed record field: an integer
is Python-indexed; a field already holding a resolved reference raises a
`TypeError` (mapped to `malformedRecord`). -/
def resolveTaskField (tasks : List Task) : Sum Int Task → Except ImportError Task
  | .inl i => pyIndex tasks i
  | .inr _ => .error .malformedRecord

/-- `get_user(users, data['user'])` on a dynamically-typed record field: a
string is scanned for; a field already holding a resolved `User` never
compares equal to any username string, so the scan exhausts and raises
`KeyError` (`userNotFound`). -/
def resolveUserField (users : List User) : Sum String User → Except ImportError User
  | .inl name => get_user users name
  | .inr _ => .error .userNotFound

/-- The file-list comprehension on a dynamically-typed record field: a
still-serialized list is built element-wise; a field already overwritten
with a keyed map is not importable (`malformedRecord`). -/
def filesField : Sum (List File) (List (String × File)) →
    Except ImportError (List File)
  | .inl fl => .ok (fl.map basic_import_from_dict)
  | .inr _ => .error .malformedRecord

/-- Same as `filesField` for the executables field. -/
def executablesField : Sum (List Executable) (List (String × Executable)) →
    Except ImportError (List Executable)
  | .inl el => .ok (el.map basic_import_from_dict)
  | .inr _ => .error .malformedRecord

/-- `score_import_from_dict` with the record's in-place mutation made
explicit: the builder overwrites the record's task and user fields with
the resolved references, and returns the entity together with the
post-call states of the record and of the two context lists. -/
def score_import_state (data : ScoreDict) (tasks : List Task)
    (users : List User) :
    Except ImportError (Score × ScoreDict × List Task × List User) := do
  let task ← resolveTaskField tasks data.task
  let user ← resolveUserField users data.user
  let data' : ScoreDict := { data with task := .inr task, user := .inr user }
  pure ({ payload := data'.payload, task := task, user := user },
    data', tasks, users)

/-- `submission_import_from_dict` with the record's in-place mutation made
explicit: the file and executable lists are overwritten by the keyed
maps, the evaluations, token and task fields by their built forms, and
the user field by the placeholder `None`. -/
def submission_import_state (data : SubmissionDict) (tasks : List Task) :
    Except ImportError (Submission × SubmissionDict × List Task) := do
  let fl ← filesField data.files
  let files := pyDict (fl.map fun f => (f.filename, f))
  let el ← executablesField data.executables
  let executables := pyDict (el.map fun e => (e.filename, e))
  let evaluations := data.evaluations.map basic_import_from_dict
  let token := data.token.map basic_import_from_dict
  let task ← resolveTaskField tasks data.task
  let data' : SubmissionDict :=
    { data with
      files := .inr files
      executables := .inr executables
      evaluations := evaluations
      token := token
      task := .inr task
      user := none }
  pure ({ payload := data'.payload, user := none, task := task,
          files := files, executables := executables,
          evaluations := evaluations, token := token }, data', tasks)

def exScoreDictPre : ScoreDict :=
  { payload := "10", task := .inl 0, user := .inl "alice" }

def exScoreDictPost : ScoreDict :=
  { payload := "10", task := .inr exTask0, user := .inr exUserAlice }

/-- Claim C8 counterexample: the score builder destructively updates the
record it was given — after the call, the record's task and user fields
hold the resolved references instead of the serialized index and
username.  That is a modification observable to the caller (who owns the
record), refuting "nothing else observable to the caller is modified". -/
theorem C8_counterexample :
    score_import_state exScoreDictPre [exTask0] [exUserAlice] =
        .ok (exScore1, exScoreDictPost, [exTask0], [exUserAlice]) ∧
      exScoreDictPost ≠ exScoreDictPre := by decide

/-- Claim C8 (amended): the context collections (task sequence, user
sequence) supplied by the ancestor are unchanged by the score and
submission builders; but the builders do overwrite fields of the
serialized record they were given, which is the one caller-observable
modification beyond returning the entity. -/
theorem C8_amended_context_read_only :
    (∀ (d : ScoreDict) (tasks : List Task) (users : List User) s d' ts us,
        score_import_state d tasks users = .ok (s, d', ts, us) →
          ts = tasks ∧ us = users) ∧
    (∀ (d : SubmissionDict) (tasks : List Task) s d' ts,
        submission_import_state d tasks = .ok (s, d', ts) → ts = tasks) := by
  constructor
  · intro d tasks users s d' ts us h
    unfold score_import_state at h
    rw [bind_eq_match] at h
    cases h1 : resolveTaskField tasks d.task with
    | error e =>
      rw [h1] at h
      exact absurd h (fun hc => Except.noConfusion hc)
    | ok task =>
      rw [h1] at h
      dsimp only at h
      rw [bind_eq_match] at h
      cases h2 : resolveUserField users d.user with
      | error e =>
        rw [h2] at h
        exact absurd h (fun hc => Except.noConfusion hc)
      | ok user =>
        rw [h2] at h
        dsimp only at h
        injection h with h
        injection h with hA h
        injection h with hB h
        injection h with hC hD
        exact ⟨hC.symm, hD.symm⟩
  · intro d tasks s d' ts h
    unfold submission_import_state at h
    rw [bind_eq_match] at h
    cases h1 : filesField d.files with
    | error e =>
      rw [h1] at h
      exact absurd h (fun hc => Except.noConfusion hc)
    | ok fl =>
      rw [h1] at h
      dsimp only at h
      rw [bind_eq_match] at h
      cases h2 : executablesField d.executables with
      | error e =>
        rw [h2] at h
        exact absurd h (fun hc => Except.noConfusion hc)
      | ok el =>
        rw [h2] at h
        dsimp only at h
        rw [bind_eq_match] at h
        cases h3 : resolveTaskField tasks d.task with
        | error e =>
          rw [h3] at h
          exact absurd h (fun hc => Except.noConfusion hc)
        | ok task =>
          rw [h3] at h
          dsimp only at h
          injection h with h
          injection h with hA h
          injection h with hB hC
          exact hC.symm

theorem C8_amended_context_read_only_witness :
    ([exTask0] : List Task) = [exTask0] ∧
      ([exUserAlice] : List User) = [exUserAlice] :=
  C8_amended_context_read_only.1 exScoreDictPre [exTask0] [exUserAlice]
    exScore1 exScoreDictPost [exTask0] [exUserAlice] (by decide)

/-! ## The serializer, modelled from the spec

The exporter (`export_to_dict`) is not among the given sources; the spec
describes the serialized shape (§3, §6): keyed maps are serialized as the
sequence of their values, a task reference as its position in the task
sequence, a score's user as its username, and a submission's
back-reference is omitted. -/

/-- Modelled from the spec: the index under which a task reference is
serialized — the task's position in the ancestor's task sequence, "in the
same order the tasks were serialized" (§4.3); the exporter producing it
is not among the given sources. -/
def posOf : List Task → Task → Int
  | [], _ => 0
  | t' :: rest, t => if t' = t then 0 else posOf rest t + 1

theorem posOf_nonneg (tasks : List Task) (t : Task) : 0 ≤ posOf tasks t := by
  induction tasks with
  | nil => exact le_refl 0
  | cons t' rest ih =>
    by_cases h : t' = t
    · simp [posOf, h]
    · simp only [posOf, if_neg h]
      omega

theorem pyIndex_posOf {tasks : List Task} {t : Task} (h : t ∈ tasks) :
    pyIndex tasks (posOf tasks t) = .ok t := by
  induction tasks with
  | nil => cases h
  | cons t' rest ih =>
    by_cases he : t' = t
    · simp only [posOf, if_pos he]
      rw [pyIndex_ok_nonneg (le_refl 0)]
      simp [he]
    · simp only [posOf, if_neg he]
      rcases List.mem_cons.mp h with h1 | h1
      · exact absurd h1.symm he
      · have hp := ih h1
        have hnn := posOf_nonneg rest t
        rw [pyIndex_ok_nonneg (by omega : (0 : Int) ≤ posOf rest t + 1)]
        rw [pyIndex_ok_nonneg hnn] at hp
        have htn : (posOf rest t + 1).toNat = (posOf rest t).toNat + 1 := by
          omega
        rw [htn]
        simpa using hp

/-- Modelled from the spec: export of a task record (§6) — the keyed maps
are serialized as the sequences of their values. -/
def Task.export_to_dict (t : Task) : TaskData :=
  { payload := t.payload, attachments := t.attachments.map Prod.snd
    submission_format := t.submission_format
    managers := t.managers.map Prod.snd, testcases := t.testcases }

/-- Modelled from the spec: export of a submission record (§6) — the task
reference becomes its position, the user back-reference is omitted
("omitted/ignored on input, since it is reconstructed from context"),
maps become value sequences. -/
def Submission.export_to_dict (s : Submission) (tasks : List Task) :
    SubmissionData :=
  { payload := s.payload, task := posOf tasks s.task
    files := s.files.map Prod.snd, executables := s.executables.map Prod.snd
    evaluations := s.evaluations, token := s.token }

/-- Modelled from the spec: export of a user record (§6). -/
def User.export_to_dict (u : User) (tasks : List Task) : UserData :=
  { username := u.username, payload := u.payload, messages := u.messages
    questions := u.questions
    submissions := u.submissions.map fun s => Submission.export_to_dict s tasks }

/-- Modelled from the spec: export of a score record (§4.3) — the task by
position, the user by username. -/
def Score.export_to_dict (s : Score) (tasks : List Task) : ScoreData :=
  { payload := s.payload, task := posOf tasks s.task
    user := s.user.username }

/-- Modelled from the spec: export of a ranking-view record (§6) — the
score map is serialized as the sequence of its values. -/
def RankingView.export_to_dict (rv : RankingView) (tasks : List Task) :
    RankingViewData :=
  { payload := rv.payload
    scores := rv.scores.map fun p => Score.export_to_dict p.2 tasks }

/-- Modelled from the spec: export of a contest record (§6). -/
def Contest.export_to_dict (c : Contest) : ContestData :=
  { payload := c.payload, tasks := c.tasks.map Task.export_to_dict
    users := c.users.map fun u => User.export_to_dict u c.tasks
    announcements := c.announcements
    ranking_view := RankingView.export_to_dict c.ranking_view c.tasks }

/-! ## Validity of a contest graph (the "validly constructed" premise) -/

/-- A filename-keyed map is well formed: each key is its value's filename
and the keys are pairwise distinct. -/
def GoodMap {β : Type} (filename : β → String)
    (m : List (String × β)) : Prop :=
  (∀ p ∈ m, p.1 = filename p.2) ∧ (m.map Prod.fst).Nodup

def GoodTask (t : Task) : Prop :=
  GoodMap Attachment.filename t.attachments ∧
    GoodMap Manager.filename t.managers

/-- A submission is well linked in its contest: its back-reference points
at its owner, its task is one of the contest's tasks, and its maps are
well formed. -/
def GoodSubmission (tasks : List Task) (owner : UserCore)
    (s : Submission) : Prop :=
  s.user = some owner ∧ s.task ∈ tasks ∧
    GoodMap File.filename s.files ∧ GoodMap Executable.filename s.executables

def GoodUser (tasks : List Task) (u : User) : Prop :=
  ∀ s ∈ u.submissions, GoodSubmission tasks u.core s

/-- A score is well linked: its task is one of the contest's tasks and the
username scan over the contest's users yields exactly its user. -/
def GoodScore (tasks : List Task) (users : List User) (s : Score) : Prop :=
  s.task ∈ tasks ∧ get_user users s.user.username = .ok s.user

def GoodRankingView (tasks : List Task) (users : List User)
    (rv : RankingView) : Prop :=
  (∀ p ∈ rv.scores, p.1 = Score.rankingview_keyfunc p.2 ∧
      GoodScore tasks users p.2) ∧
    (rv.scores.map Prod.fst).Nodup

def GoodContest (c : Contest) : Prop :=
  (∀ t ∈ c.tasks, GoodTask t) ∧ (∀ u ∈ c.users, GoodUser c.tasks u) ∧
    GoodRankingView c.tasks c.users c.ranking_view

instance {β : Type} (filename : β → String) (m : List (String × β)) :
    Decidable (GoodMap filename m) := by
  unfold GoodMap
  infer_instance

instance (t : Task) : Decidable (GoodTask t) := by
  unfold GoodTask
  infer_instance

instance (tasks : List Task) (owner : UserCore) (s : Submission) :
    Decidable (GoodSubmission tasks owner s) := by
  unfold GoodSubmission
  infer_instance

instance (tasks : List Task) (u : User) : Decidable (GoodUser tasks u) := by
  unfold GoodUser
  infer_instance

instance (tasks : List Task) (users : List User) (s : Score) :
    Decidable (GoodScore tasks users s) := by
  unfold GoodScore
  infer_instance

instance (tasks : List Task) (users : List User) (rv : RankingView) :
    Decidable (GoodRankingView tasks users rv) := by
  unfold GoodRankingView
  infer_instance

instance (c : Contest) : Decidable (GoodContest c) := by
  unfold GoodContest
  infer_instance

/-! ## Round trip, layer by layer -/

theorem pyDict_roundtrip {β : Type} (filename : β → String)
    {m : List (String × β)} (h : GoodMap filename m) :
    pyDict ((m.map Prod.snd).map fun b => (filename b, b)) = m := by
  have h1 : (m.map Prod.snd).map (fun b => (filename b, b)) = m := by
    rw [List.map_map]
    apply map_id_on
    intro p hp
    have hk := h.1 p hp
    show (filename p.2, p.2) = p
    rw [← hk]
  rw [h1]
  exact pyDict_eq_self h.2

theorem task_roundtrip {t : Task} (h : GoodTask t) :
    Task.import_from_dict (Task.export_to_dict t) = t := by
  unfold Task.import_from_dict Task.export_to_dict
  dsimp only
  rw [map_basic, map_basic, map_basic, map_basic]
  rw [pyDict_roundtrip Attachment.filename h.1,
    pyDict_roundtrip Manager.filename h.2]

theorem submission_roundtrip {tasks : List Task} {owner : UserCore}
    {s : Submission} (h : GoodSubmission tasks owner s) :
    Submission.import_from_dict (Submission.export_to_dict s tasks) tasks =
      .ok { s with user := none } := by
  rw [submission_import_eq]
  have hpi : pyIndex tasks (Submission.export_to_dict s tasks).task
      = .ok s.task := pyIndex_posOf h.2.1
  rw [hpi]
  dsimp only
  congr 1
  unfold importedSubmission Submission.export_to_dict
  dsimp only
  rw [map_basic, map_basic, map_basic, option_map_basic]
  rw [pyDict_roundtrip File.filename h.2.2.1,
    pyDict_roundtrip Executable.filename h.2.2.2]

theorem user_roundtrip {tasks : List Task} {u : User}
    (h : GoodUser tasks u) :
    User.import_from_dict (User.export_to_dict u tasks) tasks = .ok u := by
  rw [user_import_eq]
  have hsubs : mapOrFail (fun sd => Submission.import_from_dict sd tasks)
      (User.export_to_dict u tasks).submissions
      = .ok (u.submissions.map fun s => { s with user := none }) := by
    show mapOrFail _ (u.submissions.map fun s => Submission.export_to_dict s tasks)
      = _
    rw [mapOrFail_comp]
    exact mapOrFail_map fun s hs => submission_roundtrip (h s hs)
  rw [hsubs]
  dsimp only
  unfold User.export_to_dict
  dsimp only
  simp only [map_basic]
  rw [List.map_map]
  congr 1
  rw [map_id_on]
  intro s hs
  have hu := (h s hs).1
  show ({ s with user := some u.core } : Submission) = s
  rw [← hu]

theorem score_roundtrip {tasks : List Task} {users : List User} {s : Score}
    (h : GoodScore tasks users s) :
    Score.import_from_dict (Score.export_to_dict s tasks) tasks users
      = .ok s := by
  rw [score_import_eq]
  have hpi : pyIndex tasks (Score.export_to_dict s tasks).task = .ok s.task :=
    pyIndex_posOf h.1
  rw [hpi]
  dsimp only
  have hgu : get_user users (Score.export_to_dict s tasks).user = .ok s.user :=
    h.2
  rw [hgu]
  rfl

theorem rankingview_roundtrip {tasks : List Task} {users : List User}
    {rv : RankingView} (h : GoodRankingView tasks users rv) :
    RankingView.import_from_dict (RankingView.export_to_dict rv tasks)
      tasks users = .ok rv := by
  rw [rankingview_import_eq]
  have hscores : mapOrFail (fun sd => Score.import_from_dict sd tasks users)
      (RankingView.export_to_dict rv tasks).scores
      = .ok (rv.scores.map fun p => p.2) := by
    show mapOrFail _ (rv.scores.map fun p => Score.export_to_dict p.2 tasks)
      = _
    rw [mapOrFail_comp]
    exact mapOrFail_map fun p hp => score_roundtrip ((h.1 p hp).2)
  rw [hscores]
  dsimp only
  congr 1
  have h1 : (rv.scores.map fun p => p.2).map
      (fun sc => (Score.rankingview_keyfunc sc, sc)) = rv.scores := by
    rw [List.map_map]
    apply map_id_on
    intro p hp
    have hk := (h.1 p hp).1
    show (Score.rankingview_keyfunc p.2, p.2) = p
    rw [← hk]
  rw [h1, pyDict_eq_self h.2]
  rfl

/-- Claim C7: serializing a validly constructed contest graph to the
nested-map form and re-importing it reconstructs the very same graph —
same field values, same positional task references, same keyed user and
filename references, and the submission back-references re-patched to
their owners. -/
theorem C7_round_trip :
    ∀ c : Contest, GoodContest c →
      Contest.import_from_dict (Contest.export_to_dict c) = .ok c := by
  intro c h
  rw [contest_import_eq]
  have htasks : (Contest.export_to_dict c).tasks.map Task.import_from_dict
      = c.tasks := by
    show (c.tasks.map Task.export_to_dict).map Task.import_from_dict = c.tasks
    rw [List.map_map]
    exact map_id_on fun t ht => task_roundtrip (h.1 t ht)
  have husers : mapOrFail (fun ud => User.import_from_dict ud
      ((Contest.export_to_dict c).tasks.map Task.import_from_dict))
      (Contest.export_to_dict c).users = .ok c.users := by
    rw [htasks]
    show mapOrFail _ (c.users.map fun u => User.export_to_dict u c.tasks) = _
    rw [mapOrFail_comp]
    have hmm := mapOrFail_map fun u hu => user_roundtrip (h.2.1 u hu)
    rwa [map_id_on fun x hx => rfl] at hmm
  rw [husers]
  dsimp only
  have hrv : RankingView.import_from_dict (Contest.export_to_dict c).ranking_view
      ((Contest.export_to_dict c).tasks.map Task.import_from_dict) c.users
      = .ok c.ranking_view := by
    rw [htasks]
    show RankingView.import_from_dict
      (RankingView.export_to_dict c.ranking_view c.tasks) c.tasks c.users = _
    exact rankingview_roundtrip h.2.2
  rw [hrv]
  dsimp only
  rw [htasks]
  rw [map_basic]
  rfl

def exAttFull : Attachment := { filename := "text.pdf", payload := "att" }

def exTaskFull : Task :=
  { payload := "T", attachments := [("text.pdf", exAttFull)]
    submission_format := [{ payload := "sfe" }], managers := []
    testcases := [{ payload := "tc" }] }

def exFileMain : File := { filename := "main.cpp", payload := "src" }

def exCoreBob : UserCore :=
  { username := "bob", payload := "pw2", messages := [], questions := [] }

def exSubBob : Submission :=
  { payload := "sub", user := some exCoreBob, task := exTaskFull
    files := [("main.cpp", exFileMain)], executables := []
    evaluations := [{ payload := "ev" }], token := some { payload := "tok" } }

def exUserBob : User :=
  { username := "bob", payload := "pw2", messages := [], questions := []
    submissions := [exSubBob] }

def exScoreFull : Score :=
  { payload := "100", task := exTaskFull, user := exUserBob }

def exRvFull : RankingView :=
  { payload := "rv", scores := [((exTaskFull, exUserBob), exScoreFull)] }

def exContestFull : Contest :=
  { payload := "C", tasks := [exTaskFull], users := [exUserBob]
    announcements := [{ payload := "ann" }], ranking_view := exRvFull }

theorem C7_round_trip_witness :
    GoodContest exContestFull ∧
      Contest.import_from_dict (Contest.export_to_dict exContestFull)
        = .ok exContestFull :=
  ⟨by decide, C7_round_trip exContestFull (by decide)⟩

end Cms
